import Mathlib

/-!
Shallow embedding of the ray-tracer core (src/src/modules of the repository):
vec3.rs, ray.rs, interval.rs, material.rs, hittable.rs, sphere.rs,
hittable_list.rs and the `ray_color` routine of camera.rs.

Conventions of the embedding:
* `f64` is idealised as `ℝ`; `f64::INFINITY` appears only as an interval
  bound, so interval bounds live in `EReal` with `⊤` for `+∞`.
* Rust out-parameter style (`hit(&self, r, ray_t, rec: &mut HitRecord) -> bool`)
  becomes a function returning `Bool × HitRecord`: the bool and the record as
  left by the call.
* The random generators (`random_double`, the rejection-sampling
  `random_unit_vector`) are modelled as injected values: each `scatter` call
  receives the draws it consumes in a `ScatterRand` record, and the recursive
  `ray_color` receives a stream of such records, one per bounce.
-/

namespace RayTracer

noncomputable section

open scoped Classical

/-- `Vec3` of vec3.rs: three `f64` components, idealised as reals. -/
@[ext] structure Vec3 where
  x : ℝ
  y : ℝ
  z : ℝ

/-- `Vec3::zero()`. -/
def Vec3.zero : Vec3 := ⟨0, 0, 0⟩

/-- `Vec3::new(x, y, z)`. -/
def Vec3.new (x y z : ℝ) : Vec3 := ⟨x, y, z⟩

/-- `impl Add for Vec3`. -/
instance : Add Vec3 := ⟨fun a b => ⟨a.x + b.x, a.y + b.y, a.z + b.z⟩⟩

/-- `impl Sub for Vec3`. -/
instance : Sub Vec3 := ⟨fun a b => ⟨a.x - b.x, a.y - b.y, a.z - b.z⟩⟩

/-- `impl Neg for Vec3`. -/
instance : Neg Vec3 := ⟨fun a => ⟨-a.x, -a.y, -a.z⟩⟩

/-- `impl Mul for Vec3` (component-wise). -/
instance : Mul Vec3 := ⟨fun a b => ⟨a.x * b.x, a.y * b.y, a.z * b.z⟩⟩

/-- `impl Mul<Vec3> for f64`. -/
instance : HMul ℝ Vec3 Vec3 := ⟨fun s v => ⟨s * v.x, s * v.y, s * v.z⟩⟩

/-- `impl Mul<f64> for Vec3`: defined in the source as `scalar * self`. -/
instance : HMul Vec3 ℝ Vec3 := ⟨fun v s => s * v⟩

/-- `impl Div<f64> for Vec3`: `(1.0 / scalar) * self`. -/
instance : HDiv Vec3 ℝ Vec3 := ⟨fun v s => (1 / s) * v⟩

@[simp] lemma Vec3.new_x (a b c : ℝ) : (Vec3.new a b c).x = a := rfl
@[simp] lemma Vec3.new_y (a b c : ℝ) : (Vec3.new a b c).y = b := rfl
@[simp] lemma Vec3.new_z (a b c : ℝ) : (Vec3.new a b c).z = c := rfl
@[simp] lemma Vec3.zero_x : (Vec3.zero).x = 0 := rfl
@[simp] lemma Vec3.zero_y : (Vec3.zero).y = 0 := rfl
@[simp] lemma Vec3.zero_z : (Vec3.zero).z = 0 := rfl
@[simp] lemma Vec3.add_x (a b : Vec3) : (a + b).x = a.x + b.x := rfl
@[simp] lemma Vec3.add_y (a b : Vec3) : (a + b).y = a.y + b.y := rfl
@[simp] lemma Vec3.add_z (a b : Vec3) : (a + b).z = a.z + b.z := rfl
@[simp] lemma Vec3.sub_x (a b : Vec3) : (a - b).x = a.x - b.x := rfl
@[simp] lemma Vec3.sub_y (a b : Vec3) : (a - b).y = a.y - b.y := rfl
@[simp] lemma Vec3.sub_z (a b : Vec3) : (a - b).z = a.z - b.z := rfl
@[simp] lemma Vec3.neg_x (a : Vec3) : (-a).x = -a.x := rfl
@[simp] lemma Vec3.neg_y (a : Vec3) : (-a).y = -a.y := rfl
@[simp] lemma Vec3.neg_z (a : Vec3) : (-a).z = -a.z := rfl
@[simp] lemma Vec3.mul_x (a b : Vec3) : (a * b).x = a.x * b.x := rfl
@[simp] lemma Vec3.mul_y (a b : Vec3) : (a * b).y = a.y * b.y := rfl
@[simp] lemma Vec3.mul_z (a b : Vec3) : (a * b).z = a.z * b.z := rfl
@[simp] lemma Vec3.smul_x (s : ℝ) (v : Vec3) : (s * v).x = s * v.x := rfl
@[simp] lemma Vec3.smul_y (s : ℝ) (v : Vec3) : (s * v).y = s * v.y := rfl
@[simp] lemma Vec3.smul_z (s : ℝ) (v : Vec3) : (s * v).z = s * v.z := rfl
@[simp] lemma Vec3.mul_scalar (v : Vec3) (s : ℝ) : v * s = s * v := rfl
@[simp] lemma Vec3.div_def (v : Vec3) (s : ℝ) : v / s = (1 / s) * v := rfl

/-- `Vec3::dot`. -/
def Vec3.dot (a b : Vec3) : ℝ := a.x * b.x + a.y * b.y + a.z * b.z

/-- `Vec3::length_squared`. -/
def Vec3.length_squared (v : Vec3) : ℝ := v.x * v.x + v.y * v.y + v.z * v.z

/-- `Vec3::length`. -/
def Vec3.length (v : Vec3) : ℝ := Real.sqrt v.length_squared

/-- `Vec3::unit_vector`: `self / self.length()`. -/
def Vec3.unit_vector (v : Vec3) : Vec3 := v / v.length

/-- `Vec3::near_zero`: every component has absolute value below `1e-8`. -/
def Vec3.near_zero (v : Vec3) : Prop :=
  |v.x| < 1e-8 ∧ |v.y| < 1e-8 ∧ |v.z| < 1e-8

/-- `Vec3::cross`. -/
def Vec3.cross (a b : Vec3) : Vec3 :=
  ⟨a.y * b.z - a.z * b.y, a.z * b.x - a.x * b.z, a.x * b.y - a.y * b.x⟩

/-- `pub type Point3 = Vec3`. -/
abbrev Point3 := Vec3

/-- `pub type Color = Vec3` (color.rs). -/
abbrev Color := Vec3

/-- `reflect(v, n) = v - 2.0 * v.dot(&n) * n` (vec3.rs). -/
def reflect (v n : Vec3) : Vec3 := v - (2 * Vec3.dot v n) * n

/-- `refract(uv, n, etai_over_etat)` (vec3.rs). -/
def refract (uv n : Vec3) (etai_over_etat : ℝ) : Vec3 :=
  let cos_theta := min (Vec3.dot uv (-n)) 1
  let r_out_perp := etai_over_etat * (uv + cos_theta * n)
  let r_out_parallel := (-Real.sqrt |1 - r_out_perp.length_squared|) * n
  r_out_perp + r_out_parallel

/-- `INFINITY` of utils.rs (`f64::INFINITY`), as the top of `EReal`. -/
def INFINITY : EReal := ⊤

/-- `Interval` of interval.rs; bounds are `f64` values that may be `±∞`. -/
structure Interval where
  min : EReal
  max : EReal

/-- `Interval::new(min, max)`. -/
def Interval.new (min max : EReal) : Interval := ⟨min, max⟩

/-- `Interval::size`. -/
def Interval.size (i : Interval) : EReal := i.max - i.min

/-- `Interval::contains`: `min <= x && x <= max`. -/
def Interval.contains (i : Interval) (x : ℝ) : Prop :=
  i.min ≤ (x : EReal) ∧ (x : EReal) ≤ i.max

/-- `Interval::surrounds`: the open comparison `min < x && x < max`. -/
def Interval.surrounds (i : Interval) (x : ℝ) : Prop :=
  i.min < (x : EReal) ∧ (x : EReal) < i.max

/-- `Interval::EMPTY`. -/
def Interval.EMPTY : Interval := ⟨INFINITY, -INFINITY⟩

/-- `Interval::UNIVERSE`. -/
def Interval.UNIVERSE : Interval := ⟨-INFINITY, INFINITY⟩

@[simp] lemma Interval.new_min (a b : EReal) : (Interval.new a b).min = a := rfl
@[simp] lemma Interval.new_max (a b : EReal) : (Interval.new a b).max = b := rfl

/-- `Ray` of ray.rs. -/
structure Ray where
  origin : Vec3
  direction : Vec3

/-- `Ray::new(origin, direction)`. -/
def Ray.new (origin direction : Vec3) : Ray := ⟨origin, direction⟩

/-- `Ray::default()`. -/
def Ray.default : Ray := ⟨Vec3.new 0 0 0, Vec3.new 0 0 0⟩

/-- `Ray::at(t) = origin + direction * t`. -/
def Ray.at (r : Ray) (t : ℝ) : Vec3 := r.origin + r.direction * t

@[simp] lemma Ray.new_origin (o d : Vec3) : (Ray.new o d).origin = o := rfl
@[simp] lemma Ray.new_direction (o d : Vec3) : (Ray.new o d).direction = d := rfl

/-- `Lambertian` of material.rs. -/
structure Lambertian where
  albedo : Color

/-- `Lambertian::new(albedo)`. -/
def Lambertian.new (albedo : Color) : Lambertian := ⟨albedo⟩

/-- `Metal` of material.rs. -/
structure Metal where
  albedo : Color
  fuzz : ℝ

/-- `Metal::new(albedo, fuzz)`: stores `f64::min(fuzz, 1.0)`. -/
def Metal.new (albedo : Color) (fuzz : ℝ) : Metal := ⟨albedo, min fuzz 1⟩

/-- `Dielectric` of material.rs. -/
structure Dielectric where
  refraction_index : ℝ

/-- `Dielectric::new(refraction_index)`. -/
def Dielectric.new (refraction_index : ℝ) : Dielectric := ⟨refraction_index⟩

/-- `Dielectric::reflectance`: Schlick's approximation. -/
def Dielectric.reflectance (_d : Dielectric) (cosine ref_idx : ℝ) : ℝ :=
  let r0 := (1 - ref_idx) / (1 + ref_idx)
  let r0 := r0 * r0
  r0 + (1 - r0) * (1 - cosine) ^ 5

/-- The closed sum of the three material variants behind `dyn Material`. -/
inductive Material where
  | lambertian : Lambertian → Material
  | metal : Metal → Material
  | dielectric : Dielectric → Material

/-- `HitRecord` of hittable.rs. `front_face` is the result of a real
comparison, kept as a proposition. -/
structure HitRecord where
  p : Point3
  normal : Vec3
  mat : Material
  t : ℝ
  front_face : Prop

/-- `HitRecord::default()`: origin point, zero normal, grey Lambertian. -/
def HitRecord.default : HitRecord :=
  { p := Vec3.new 0 0 0
    normal := Vec3.new 0 0 0
    mat := .lambertian (Lambertian.new (Vec3.new 0.4 0.4 0.4))
    t := 0
    front_face := False }

/-- `HitRecord::set_face_normal`: orientation-corrects the outward normal by
the front-face rule. -/
def HitRecord.set_face_normal (rec : HitRecord) (r : Ray) (outward_normal : Vec3) :
    HitRecord :=
  let ff := Vec3.dot r.direction outward_normal < 0
  { rec with
    front_face := ff
    normal := if ff then outward_normal else -outward_normal }

@[simp] lemma HitRecord.set_face_normal_p (rec : HitRecord) (r : Ray) (n : Vec3) :
    (rec.set_face_normal r n).p = rec.p := rfl
@[simp] lemma HitRecord.set_face_normal_mat (rec : HitRecord) (r : Ray) (n : Vec3) :
    (rec.set_face_normal r n).mat = rec.mat := rfl
@[simp] lemma HitRecord.set_face_normal_t (rec : HitRecord) (r : Ray) (n : Vec3) :
    (rec.set_face_normal r n).t = rec.t := rfl

/-- The random draws one `scatter` call consumes: the value returned by the
rejection-sampling `random_unit_vector()` and the uniform `random_double()`
draw, injected rather than read from a hidden generator. -/
structure ScatterRand where
  unitVec : Vec3
  uniform : ℝ

/-- The out-parameters and return value of `Material::scatter`. -/
structure ScatterResult where
  attenuation : Color
  scattered : Ray
  didScatter : Prop

/-- `impl Material for Lambertian`: `scatter`. -/
def Lambertian.scatter (l : Lambertian) (_r_in : Ray) (rec : HitRecord)
    (rnd : ScatterRand) : ScatterResult :=
  let scatter_direction := rec.normal + rnd.unitVec
  let scatter_direction :=
    if Vec3.near_zero scatter_direction then rec.normal else scatter_direction
  { attenuation := l.albedo
    scattered := Ray.new rec.p scatter_direction
    didScatter := True }

/-- `impl Material for Metal`: `scatter`. -/
def Metal.scatter (m : Metal) (r_in : Ray) (rec : HitRecord)
    (rnd : ScatterRand) : ScatterResult :=
  let reflected := reflect r_in.direction rec.normal
  let reflected := reflected.unit_vector + m.fuzz * rnd.unitVec
  let scattered := Ray.new rec.p reflected
  { attenuation := m.albedo
    scattered := scattered
    didScatter := Vec3.dot scattered.direction rec.normal > 0 }

/-- `impl Material for Dielectric`: `scatter`. -/
def Dielectric.scatter (d : Dielectric) (r_in : Ray) (rec : HitRecord)
    (rnd : ScatterRand) : ScatterResult :=
  let r := if rec.front_face then 1 / d.refraction_index else d.refraction_index
  let unit_direction := r_in.direction.unit_vector
  let cos_theta := min (Vec3.dot unit_direction (-rec.normal)) 1
  let sin_theta := Real.sqrt (1 - cos_theta * cos_theta)
  let cannot_refract := r * sin_theta > 1
  let direction :=
    if cannot_refract ∨ d.reflectance cos_theta r > rnd.uniform then
      reflect unit_direction rec.normal
    else
      refract unit_direction rec.normal r
  { attenuation := Vec3.new 1 1 1
    scattered := Ray.new rec.p direction
    didScatter := True }

/-- Dynamic dispatch of `dyn Material`. -/
def Material.scatter : Material → Ray → HitRecord → ScatterRand → ScatterResult
  | .lambertian l, r_in, rec, rnd => l.scatter r_in rec rnd
  | .metal m, r_in, rec, rnd => m.scatter r_in rec rnd
  | .dielectric d, r_in, rec, rnd => d.scatter r_in rec rnd

/-- `Sphere` of sphere.rs. The struct holds only a center and a radius; it has
no material field. -/
structure Sphere where
  center : Point3
  radius : ℝ

/-- `Sphere::new(center, radius)`: clamps the radius to `max(radius, 0)`. -/
def Sphere.new (center : Point3) (radius : ℝ) : Sphere :=
  ⟨center, max radius 0⟩

/-- `impl Hittable for Sphere`: the ray-sphere intersection of sphere.rs. -/
def Sphere.hit (s : Sphere) (r : Ray) (ray_t : Interval) (rec : HitRecord) :
    Bool × HitRecord :=
  let oc := s.center - r.origin
  let a := r.direction.length_squared
  let h := Vec3.dot r.direction oc
  let c := oc.length_squared - s.radius * s.radius
  let discriminant := h * h - a * c
  if discriminant < 0 then (false, rec)
  else
    let sqrt_d := Real.sqrt discriminant
    let root1 := (h - sqrt_d) / a
    let root2 := (h + sqrt_d) / a
    if ray_t.surrounds root1 then
      let p := r.at root1
      let outward_normal := (p - s.center) / s.radius
      (true, ({ rec with t := root1, p := p }).set_face_normal r outward_normal)
    else if ray_t.surrounds root2 then
      let p := r.at root2
      let outward_normal := (p - s.center) / s.radius
      (true, ({ rec with t := root2, p := p }).set_face_normal r outward_normal)
    else (false, rec)

/-- A `dyn Hittable` trait object: anything with the `hit` capability, in the
out-parameter style of hittable.rs. -/
structure Hittable where
  hit : Ray → Interval → HitRecord → Bool × HitRecord

/-- `Arc::new(sphere)` as a trait object. -/
def Sphere.toHittable (s : Sphere) : Hittable := ⟨s.hit⟩

/-- `HittableList` of hittable_list.rs. -/
structure HittableList where
  objects : List Hittable

/-- `HittableList::new()`. -/
def HittableList.new : HittableList := ⟨[]⟩

/-- `HittableList::add(object)`. -/
def HittableList.add (l : HittableList) (o : Hittable) : HittableList :=
  ⟨l.objects ++ [o]⟩

/-- `HittableList::clear()`. -/
def HittableList.clear (_l : HittableList) : HittableList := ⟨[]⟩

/-- The loop body of `HittableList::hit`: threads `temp_rec`, `hit_anything`,
`closest_so_far` and the out-record through the member list. -/
def hitLoop (r : Ray) (mn : EReal) :
    List Hittable → HitRecord → Bool → EReal → HitRecord → Bool × HitRecord
  | [], _temp_rec, hit_anything, _closest, rec => (hit_anything, rec)
  | o :: rest, temp_rec, hit_anything, closest_so_far, rec =>
    let res := o.hit r (Interval.new mn closest_so_far) temp_rec
    if res.1 then
      hitLoop r mn rest res.2 true ((res.2.t : ℝ) : EReal) res.2
    else
      hitLoop r mn rest res.2 hit_anything closest_so_far rec

/-- `impl Hittable for HittableList`: nearest-hit accumulation with the
interval's upper bound shrunk to the best `t` so far. -/
def HittableList.hit (l : HittableList) (r : Ray) (ray_t : Interval)
    (rec : HitRecord) : Bool × HitRecord :=
  hitLoop r ray_t.min l.objects HitRecord.default false ray_t.max rec

/-- A `HittableList` as a trait object (lists nest as hittables). -/
def HittableList.toHittable (l : HittableList) : Hittable := ⟨l.hit⟩

/-- `Camera::ray_color` of camera.rs. The camera's own state is unused by the
routine; the depth is a natural number and the per-bounce random draws come
from the injected stream. -/
def Camera.ray_color (world : Hittable) : Ray → ℕ → (ℕ → ScatterRand) → Color
  | _, 0, _ => Vec3.zero
  | r, depth + 1, rng =>
    let res := world.hit r (Interval.new ((0.001 : ℝ) : EReal) INFINITY)
      HitRecord.default
    if res.1 then
      let s := res.2.mat.scatter r res.2 (rng 0)
      if s.didScatter then
        s.attenuation * Camera.ray_color world s.scattered depth (fun n => rng (n + 1))
      else Vec3.zero
    else
      let unit_direction := r.direction.unit_vector
      let a := 0.5 * (unit_direction.y + 1)
      (1 - a) * Vec3.new 1 1 1 + a * Vec3.new 0.5 0.7 1

end

end RayTracer

namespace RayTracer

noncomputable section

open scoped Classical

/-! ## Theorems about the embedded program -/

/-- C8: `ray_color` called with depth 0 returns exactly black `(0,0,0)` for
every scene, ray and random stream. -/
theorem ray_color_depth_zero_black (world : Hittable) (r : Ray)
    (rng : ℕ → ScatterRand) : Camera.ray_color world r 0 rng = Vec3.zero := rfl

/-- C9: the Lambertian material always scatters, its attenuation is exactly the
configured albedo, and when the sampled direction `normal + random_unit_vector()`
is near zero the scattered direction falls back to the bare normal (otherwise it
is the sampled direction itself). -/
theorem lambertian_scatter_albedo (l : Lambertian) (r_in : Ray) (rec : HitRecord)
    (rnd : ScatterRand) :
    ((Material.lambertian l).scatter r_in rec rnd).didScatter ∧
    ((Material.lambertian l).scatter r_in rec rnd).attenuation = l.albedo ∧
    (Vec3.near_zero (rec.normal + rnd.unitVec) →
      ((Material.lambertian l).scatter r_in rec rnd).scattered.direction = rec.normal) ∧
    (¬ Vec3.near_zero (rec.normal + rnd.unitVec) →
      ((Material.lambertian l).scatter r_in rec rnd).scattered.direction =
        rec.normal + rnd.unitVec) := by
  refine ⟨?_, ?_, ?_, ?_⟩
  · simp [Material.scatter, Lambertian.scatter]
  · simp [Material.scatter, Lambertian.scatter]
  · intro hz; simp [Material.scatter, Lambertian.scatter, hz]
  · intro hz; simp [Material.scatter, Lambertian.scatter, hz]

/-- C9 witness: at a concrete hit record and a zero random unit vector the
sampled direction is near zero, so the fallback fires and the albedo comes
back unchanged. -/
theorem lambertian_scatter_albedo_witness :
    ((Material.lambertian (Lambertian.new (Vec3.new 0.1 0.2 0.5))).scatter
        (Ray.new Vec3.zero (Vec3.new 0 0 (-1))) HitRecord.default
        ⟨Vec3.zero, 0⟩).attenuation = Vec3.new 0.1 0.2 0.5 ∧
    ((Material.lambertian (Lambertian.new (Vec3.new 0.1 0.2 0.5))).scatter
        (Ray.new Vec3.zero (Vec3.new 0 0 (-1))) HitRecord.default
        ⟨Vec3.zero, 0⟩).scattered.direction = HitRecord.default.normal := by
  have hmain := lambertian_scatter_albedo (Lambertian.new (Vec3.new 0.1 0.2 0.5))
    (Ray.new Vec3.zero (Vec3.new 0 0 (-1))) HitRecord.default ⟨Vec3.zero, 0⟩
  refine ⟨hmain.2.1, hmain.2.2.1 ?_⟩
  norm_num [Vec3.near_zero, HitRecord.default]

/-- C6 counterexample: `Metal::new` stores `min(fuzz, 1.0)`, which does not
clamp from below; the argument −1 is stored as −1, outside `[0,1]`. -/
theorem metal_new_fuzz_cex :
    (Metal.new (Vec3.new 1 1 1) (-1)).fuzz = -1 ∧
    ¬ (0 : ℝ) ≤ (Metal.new (Vec3.new 1 1 1) (-1)).fuzz := by
  have hv : (Metal.new (Vec3.new 1 1 1) (-1)).fuzz = -1 := by
    show min (-1 : ℝ) 1 = -1
    exact min_eq_left (by norm_num)
  exact ⟨hv, by rw [hv]; norm_num⟩

/-- C6 amended: the stored fuzz is `min fuzz 1`: it is always at most 1, and it
lies in `[0,1]` whenever the constructor argument is nonnegative. -/
theorem metal_new_fuzz_clamped (albedo : Color) (fuzz : ℝ) :
    (Metal.new albedo fuzz).fuzz ≤ 1 ∧
    (0 ≤ fuzz →
      0 ≤ (Metal.new albedo fuzz).fuzz ∧ (Metal.new albedo fuzz).fuzz ≤ 1) :=
  ⟨min_le_right _ _, fun h0 => ⟨le_min h0 zero_le_one, min_le_right _ _⟩⟩

/-- C6 amended, witness: fuzz 3/10 is stored inside `[0,1]`. -/
theorem metal_new_fuzz_clamped_witness :
    0 ≤ (Metal.new (Vec3.new 1 1 1) (3 / 10)).fuzz ∧
    (Metal.new (Vec3.new 1 1 1) (3 / 10)).fuzz ≤ 1 :=
  (metal_new_fuzz_clamped (Vec3.new 1 1 1) (3 / 10)).2 (by norm_num)

/-- C1 (code bug): on a concrete sphere and ray the intersection is accepted
with `t = 2`, yet the returned record's material is exactly the default
material the record came in with: `Sphere::hit` never writes `rec.mat`, and
the `Sphere` struct of sphere.rs has no material field to take one from. -/
theorem sphere_hit_ignores_material :
    ((Sphere.new (Vec3.new 0 0 (-3)) 1).hit (Ray.new Vec3.zero (Vec3.new 0 0 (-1)))
        (Interval.new ((0.001 : ℝ) : EReal) INFINITY) HitRecord.default).1 = true ∧
    ((Sphere.new (Vec3.new 0 0 (-3)) 1).hit (Ray.new Vec3.zero (Vec3.new 0 0 (-1)))
        (Interval.new ((0.001 : ℝ) : EReal) INFINITY) HitRecord.default).2.mat =
      HitRecord.default.mat ∧
    ((Sphere.new (Vec3.new 0 0 (-3)) 1).hit (Ray.new Vec3.zero (Vec3.new 0 0 (-1)))
        (Interval.new ((0.001 : ℝ) : EReal) INFINITY) HitRecord.default).2.t = 2 := by
  have hmax : max (1 : ℝ) 0 = 1 := max_eq_left zero_le_one
  norm_num [Sphere.hit, Sphere.new, Interval.surrounds, INFINITY, Vec3.dot,
    Vec3.length_squared, Ray.at, hmax, Real.sqrt_one, EReal.coe_lt_top]

/-- `Dielectric::scatter` written out: the scattered direction is the reflect
branch when total internal reflection is forced or the Schlick reflectance
beats the uniform draw, else the refract branch. Definitional restatement used
to reason about the branch taken. -/
lemma Dielectric.scatter_eq (d : Dielectric) (r_in : Ray) (rec : HitRecord)
    (rnd : ScatterRand) :
    d.scatter r_in rec rnd =
      { attenuation := Vec3.new 1 1 1
        scattered := Ray.new rec.p
          (if (if rec.front_face then 1 / d.refraction_index else d.refraction_index) *
                Real.sqrt (1 - min (Vec3.dot r_in.direction.unit_vector (-rec.normal)) 1 *
                  min (Vec3.dot r_in.direction.unit_vector (-rec.normal)) 1) > 1 ∨
              d.reflectance (min (Vec3.dot r_in.direction.unit_vector (-rec.normal)) 1)
                (if rec.front_face then 1 / d.refraction_index else d.refraction_index) >
                rnd.uniform then
            reflect r_in.direction.unit_vector rec.normal
          else
            refract r_in.direction.unit_vector rec.normal
              (if rec.front_face then 1 / d.refraction_index else d.refraction_index))
        didScatter := True } := rfl

/-- C5 counterexample: for the dielectric with refraction index 1 and a
grazing incoming ray with direction `(3,−4,0)` against normal `(0,1,0)`, a
uniform draw of `1/10000` falls below the Schlick reflectance `(1/5)^5`, so the
scattered direction is the reflection, not the refraction — the material does
not always refract. -/
theorem dielectric_unit_index_reflects_cex :
    ((Material.dielectric (Dielectric.new 1)).scatter
        (Ray.new Vec3.zero (Vec3.new 3 (-4) 0))
        (HitRecord.mk Vec3.zero (Vec3.new 0 1 0) HitRecord.default.mat 0 True)
        ⟨Vec3.zero, 1 / 10000⟩).scattered.direction =
      reflect ((Vec3.new 3 (-4) 0).unit_vector) (Vec3.new 0 1 0) ∧
    ((Material.dielectric (Dielectric.new 1)).scatter
        (Ray.new Vec3.zero (Vec3.new 3 (-4) 0))
        (HitRecord.mk Vec3.zero (Vec3.new 0 1 0) HitRecord.default.mat 0 True)
        ⟨Vec3.zero, 1 / 10000⟩).scattered.direction ≠
      refract ((Vec3.new 3 (-4) 0).unit_vector) (Vec3.new 0 1 0) 1 := by
  have hu : (Vec3.new 3 (-4) 0).unit_vector = Vec3.new (3 / 5) (-4 / 5) 0 := by
    have hl : (Vec3.new 3 (-4) 0).length = 5 := by
      unfold Vec3.length
      norm_num [Vec3.length_squared]
      rw [show (25 : ℝ) = 5 ^ 2 by norm_num]
      exact Real.sqrt_sq (by norm_num)
    unfold Vec3.unit_vector
    rw [hl]
    ext <;> norm_num
  have hmin : min (Vec3.dot (Vec3.new (3 / 5 : ℝ) (-4 / 5) 0) (-(Vec3.new 0 1 0))) 1
      = 4 / 5 := by
    rw [show Vec3.dot (Vec3.new (3 / 5 : ℝ) (-4 / 5) 0) (-(Vec3.new 0 1 0)) = 4 / 5 by
      norm_num [Vec3.dot]]
    exact min_eq_left (by norm_num)
  have hrefl : (Dielectric.new 1).reflectance (4 / 5) 1 = 1 / 3125 := by
    unfold Dielectric.reflectance
    norm_num
  have hrfl : reflect (Vec3.new (3 / 5 : ℝ) (-4 / 5) 0) (Vec3.new 0 1 0) =
      Vec3.new (3 / 5) (4 / 5) 0 := by
    unfold reflect
    ext <;> norm_num [Vec3.dot]
  have hrefr : refract (Vec3.new (3 / 5 : ℝ) (-4 / 5) 0) (Vec3.new 0 1 0) 1 =
      Vec3.new (3 / 5) (-4 / 5) 0 := by
    simp only [refract, hmin]
    have habs : Real.sqrt |1 - ((1 : ℝ) * (Vec3.new (3 / 5 : ℝ) (-4 / 5) 0 +
        (4 / 5 : ℝ) * Vec3.new 0 1 0)).length_squared| = 4 / 5 := by
      rw [show |1 - ((1 : ℝ) * (Vec3.new (3 / 5 : ℝ) (-4 / 5) 0 +
          (4 / 5 : ℝ) * Vec3.new 0 1 0)).length_squared| = (4 / 5 : ℝ) ^ 2 by
        rw [abs_of_nonneg (by norm_num [Vec3.length_squared])]
        norm_num [Vec3.length_squared]]
      exact Real.sqrt_sq (by norm_num)
    rw [habs]
    ext <;> norm_num
  have hdir := Dielectric.scatter_eq (Dielectric.new 1)
    (Ray.new Vec3.zero (Vec3.new 3 (-4) 0))
    (HitRecord.mk Vec3.zero (Vec3.new 0 1 0) HitRecord.default.mat 0 True)
    ⟨Vec3.zero, 1 / 10000⟩
  rw [show Material.scatter (Material.dielectric (Dielectric.new 1)) =
    (Dielectric.new 1).scatter from rfl, hdir]
  simp only [Ray.new_direction, hu]
  rw [if_pos]
  · refine ⟨rfl, ?_⟩
    rw [hrfl, hrefr]
    intro hcontra
    have hy := congrArg Vec3.y hcontra
    norm_num at hy
  · right
    rw [hmin,
      if_pos (show (HitRecord.mk Vec3.zero (Vec3.new 0 1 0)
        HitRecord.default.mat 0 True).front_face from trivial)]
    rw [show (1 : ℝ) / (Dielectric.new 1).refraction_index = 1 by
      norm_num [Dielectric.new]]
    rw [hrefl]
    norm_num

/-- C5 amended: with refraction index 1 the dielectric always scatters with
attenuation exactly `(1,1,1)` and never reflects due to index mismatch (the
total-internal-reflection condition `ratio·sinθ > 1` is always false); it
refracts whenever the Schlick reflectance `(1-cosθ)^5` does not exceed the
uniform draw — but, as the counterexample shows, it reflects when the draw
falls below that reflectance. -/
theorem dielectric_unit_index_scatter (r_in : Ray) (rec : HitRecord)
    (rnd : ScatterRand) :
    ((Material.dielectric (Dielectric.new 1)).scatter r_in rec rnd).didScatter ∧
    ((Material.dielectric (Dielectric.new 1)).scatter r_in rec rnd).attenuation =
      Vec3.new 1 1 1 ∧
    ¬ ((if rec.front_face then 1 / (Dielectric.new 1).refraction_index
          else (Dielectric.new 1).refraction_index) *
        Real.sqrt (1 - min (Vec3.dot r_in.direction.unit_vector (-rec.normal)) 1 *
          min (Vec3.dot r_in.direction.unit_vector (-rec.normal)) 1) > 1) ∧
    ((1 - min (Vec3.dot r_in.direction.unit_vector (-rec.normal)) 1) ^ 5 ≤ rnd.uniform →
      ((Material.dielectric (Dielectric.new 1)).scatter r_in rec rnd).scattered.direction =
        refract r_in.direction.unit_vector rec.normal
          (if rec.front_face then 1 / (Dielectric.new 1).refraction_index
            else (Dielectric.new 1).refraction_index)) := by
  have hr : (if rec.front_face then 1 / (Dielectric.new 1).refraction_index
      else (Dielectric.new 1).refraction_index) = 1 := by
    by_cases hf : rec.front_face
    · rw [if_pos hf]; norm_num [Dielectric.new]
    · rw [if_neg hf]; norm_num [Dielectric.new]
  have hsin : ∀ x : ℝ, Real.sqrt (1 - x * x) ≤ 1 := fun x =>
    calc Real.sqrt (1 - x * x) ≤ Real.sqrt 1 :=
          Real.sqrt_le_sqrt (by nlinarith [mul_self_nonneg x])
    _ = 1 := Real.sqrt_one
  have hcannot : ¬ ((if rec.front_face then 1 / (Dielectric.new 1).refraction_index
      else (Dielectric.new 1).refraction_index) *
      Real.sqrt (1 - min (Vec3.dot r_in.direction.unit_vector (-rec.normal)) 1 *
        min (Vec3.dot r_in.direction.unit_vector (-rec.normal)) 1) > 1) := by
    rw [hr, one_mul]
    exact not_lt.mpr (hsin _)
  refine ⟨trivial, rfl, hcannot, ?_⟩
  intro hle
  have hreflval : (Dielectric.new 1).reflectance
      (min (Vec3.dot r_in.direction.unit_vector (-rec.normal)) 1)
      (if rec.front_face then 1 / (Dielectric.new 1).refraction_index
        else (Dielectric.new 1).refraction_index) =
      (1 - min (Vec3.dot r_in.direction.unit_vector (-rec.normal)) 1) ^ 5 := by
    rw [hr]
    unfold Dielectric.reflectance
    norm_num
  rw [show Material.scatter (Material.dielectric (Dielectric.new 1)) =
    (Dielectric.new 1).scatter from rfl, Dielectric.scatter_eq]
  rw [if_neg]
  · rfl
  · rintro (habs | habs)
    · exact hcannot habs
    · rw [hreflval] at habs
      exact absurd habs (not_lt.mpr hle)

/-- C5 amended, witness: at straight-on incidence (cosθ = 1) the Schlick
reflectance is 0, so with uniform draw 1/2 the unit-index dielectric refracts. -/
theorem dielectric_unit_index_scatter_witness :
    ((Material.dielectric (Dielectric.new 1)).scatter
        (Ray.new Vec3.zero (Vec3.new 0 0 (-1)))
        (HitRecord.mk Vec3.zero (Vec3.new 0 0 1) HitRecord.default.mat 0 True)
        ⟨Vec3.zero, 1 / 2⟩).scattered.direction =
      refract ((Ray.new Vec3.zero (Vec3.new 0 0 (-1))).direction.unit_vector)
        (Vec3.new 0 0 1) 1 := by
  have h := (dielectric_unit_index_scatter (Ray.new Vec3.zero (Vec3.new 0 0 (-1)))
    (HitRecord.mk Vec3.zero (Vec3.new 0 0 1) HitRecord.default.mat 0 True)
    ⟨Vec3.zero, 1 / 2⟩).2.2.2
  have hu1 : (Vec3.new 0 0 (-1) : Vec3).unit_vector = Vec3.new 0 0 (-1) := by
    unfold Vec3.unit_vector Vec3.length
    norm_num [Vec3.length_squared, Real.sqrt_one]
    ext <;> norm_num
  have hmin1 : min (Vec3.dot (Vec3.new 0 0 (-1))
      (-(HitRecord.mk Vec3.zero (Vec3.new 0 0 1)
        HitRecord.default.mat 0 True).normal)) 1 = 1 := by
    norm_num [Vec3.dot]
  have h2 := h (by rw [Ray.new_direction, hu1, hmin1]; norm_num)
  rw [if_pos (show (HitRecord.mk Vec3.zero (Vec3.new 0 0 1)
      HitRecord.default.mat 0 True).front_face from trivial)] at h2
  rw [show (1 : ℝ) / (Dielectric.new 1).refraction_index = 1 by
    norm_num [Dielectric.new]] at h2
  exact h2

/-- C4: `Sphere::hit` rejects when the discriminant is negative or when
neither quadratic root is surrounded by the interval; when it accepts, the
reported `t` is surrounded by the interval (the open comparison) and is the
smaller root `(h-√disc)/a` when that root qualifies, else the larger root
`(h+√disc)/a`. -/
theorem sphere_hit_root_selection (s : Sphere) (r : Ray) (ray_t : Interval)
    (rec : HitRecord) :
    let oc := s.center - r.origin
    let a := r.direction.length_squared
    let h := Vec3.dot r.direction oc
    let c := oc.length_squared - s.radius * s.radius
    let discriminant := h * h - a * c
    let root1 := (h - Real.sqrt discriminant) / a
    let root2 := (h + Real.sqrt discriminant) / a
    (discriminant < 0 → (s.hit r ray_t rec).1 = false) ∧
    (¬ ray_t.surrounds root1 → ¬ ray_t.surrounds root2 →
      (s.hit r ray_t rec).1 = false) ∧
    ((s.hit r ray_t rec).1 = true →
      ray_t.surrounds ((s.hit r ray_t rec).2.t) ∧
      ((ray_t.surrounds root1 ∧ (s.hit r ray_t rec).2.t = root1) ∨
       (¬ ray_t.surrounds root1 ∧ ray_t.surrounds root2 ∧
         (s.hit r ray_t rec).2.t = root2))) := by
  intro oc a h c discriminant root1 root2
  simp only [Sphere.hit]
  split_ifs with h1 h2 h3
  · exact ⟨fun _ => rfl, fun _ _ => rfl, by simp⟩
  · exact ⟨fun hd => (h1 hd).elim, fun hnr1 _ => (hnr1 h2).elim,
      fun _ => ⟨h2, Or.inl ⟨h2, rfl⟩⟩⟩
  · exact ⟨fun hd => (h1 hd).elim, fun _ hnr2 => (hnr2 h3).elim,
      fun _ => ⟨h3, Or.inr ⟨h2, h3, rfl⟩⟩⟩
  · exact ⟨fun _ => rfl, fun _ _ => rfl, by simp⟩

/-- C4 witness: a concrete accepted hit lands strictly inside the interval. -/
theorem sphere_hit_root_selection_witness :
    (Interval.new ((0.001 : ℝ) : EReal) INFINITY).surrounds
      (((Sphere.new (Vec3.new 0 0 (-4)) 1).hit
        (Ray.new Vec3.zero (Vec3.new 0 0 (-1)))
        (Interval.new ((0.001 : ℝ) : EReal) INFINITY) HitRecord.default).2.t) := by
  have hmax : max (1 : ℝ) 0 = 1 := max_eq_left zero_le_one
  have htrue : ((Sphere.new (Vec3.new 0 0 (-4)) 1).hit
      (Ray.new Vec3.zero (Vec3.new 0 0 (-1)))
      (Interval.new ((0.001 : ℝ) : EReal) INFINITY) HitRecord.default).1 = true := by
    norm_num [Sphere.hit, Sphere.new, Interval.surrounds, INFINITY, Vec3.dot,
      Vec3.length_squared, Ray.at, hmax, Real.sqrt_one, EReal.coe_lt_top]
  exact ((sphere_hit_root_selection (Sphere.new (Vec3.new 0 0 (-4)) 1)
    (Ray.new Vec3.zero (Vec3.new 0 0 (-1)))
    (Interval.new ((0.001 : ℝ) : EReal) INFINITY) HitRecord.default).2.2 htrue).1

/-- Once a member hit has been recorded, `hit_anything` stays true for the
rest of the loop. -/
lemma hitLoop_true (r : Ray) (mn : EReal) (l : List Hittable) :
    ∀ (temp rec : HitRecord) (closest : EReal),
      (hitLoop r mn l temp true closest rec).1 = true := by
  induction l with
  | nil => intro temp rec closest; rfl
  | cons o rest ih =>
    intro temp rec closest
    simp only [hitLoop]
    split
    · exact ih _ _ _
    · exact ih _ _ _

/-- If the loop reports no hit, the out-record is the one passed in. -/
lemma hitLoop_false_frame (r : Ray) (mn : EReal) (l : List Hittable) :
    ∀ (temp rec : HitRecord) (ha : Bool) (closest : EReal),
      (hitLoop r mn l temp ha closest rec).1 = false →
      (hitLoop r mn l temp ha closest rec).2 = rec := by
  induction l with
  | nil => intro temp rec ha closest _; rfl
  | cons o rest ih =>
    intro temp rec ha closest hfalse
    simp only [hitLoop] at hfalse ⊢
    by_cases hres : (o.hit r (Interval.new mn closest) temp).1 = true
    · rw [if_pos hres] at hfalse ⊢
      simp [hitLoop_true r mn rest] at hfalse
    · rw [if_neg hres] at hfalse ⊢
      exact ih _ _ _ _ hfalse

/-- C10: when `Sphere::hit` or `HittableList::hit` returns false (no hit), the
hit record passed in is returned completely unchanged. -/
theorem hit_false_leaves_record_unchanged :
    (∀ (s : Sphere) (r : Ray) (ray_t : Interval) (rec : HitRecord),
      (s.hit r ray_t rec).1 = false → (s.hit r ray_t rec).2 = rec) ∧
    (∀ (l : HittableList) (r : Ray) (ray_t : Interval) (rec : HitRecord),
      (l.hit r ray_t rec).1 = false → (l.hit r ray_t rec).2 = rec) := by
  constructor
  · intro s r ray_t rec hfalse
    revert hfalse
    simp only [Sphere.hit]
    split_ifs <;> simp
  · intro l r ray_t rec hfalse
    exact hitLoop_false_frame r ray_t.min l.objects _ _ _ _ hfalse

/-- C10 witness: a concrete missing ray leaves the default record in place. -/
theorem hit_false_leaves_record_unchanged_witness :
    ((Sphere.new (Vec3.new 0 0 (-3)) 1).hit (Ray.new Vec3.zero (Vec3.new 0 1 0))
      (Interval.new ((0.001 : ℝ) : EReal) INFINITY) HitRecord.default).2 =
      HitRecord.default := by
  apply (hit_false_leaves_record_unchanged).1
  have hmax : max (1 : ℝ) 0 = 1 := max_eq_left zero_le_one
  norm_num [Sphere.hit, Sphere.new, Vec3.dot, Vec3.length_squared, hmax]

/-- The contract §4.2 of the spec states for a `Hittable` member: along a fixed
ray the member has a fixed list of candidate parameters; `hit` succeeds exactly
when some candidate is surrounded by the queried interval, and then it reports
the smallest surrounded candidate. -/
def MemberSpec (o : Hittable) (r : Ray) (cands : List ℝ) : Prop :=
  ∀ (I : Interval) (rec : HitRecord),
    ((o.hit r I rec).1 = true ↔ ∃ t ∈ cands, I.surrounds t) ∧
    ((o.hit r I rec).1 = true →
      (o.hit r I rec).2.t ∈ cands ∧ I.surrounds ((o.hit r I rec).2.t) ∧
      ∀ t ∈ cands, I.surrounds t → (o.hit r I rec).2.t ≤ t)

/-- All candidate parameters of a scene given as members paired with their
candidate lists. -/
def allCands : List (Hittable × List ℝ) → List ℝ
  | [] => []
  | p :: rest => p.2 ++ allCands rest

/-- Invariant of the `HittableList::hit` loop: starting from best-so-far
`closest` (equal to the accumulated record's `t` when a hit was already
recorded), the loop reports a hit exactly when one was already recorded or
some remaining candidate lies strictly between `mn` and `closest`; on a hit
the final `t` is a minimum over all such candidates, and the out-record is
either a newly recorded hit or the accumulated one. -/
lemma hitLoop_nearest (r : Ray) (mn : EReal) (ps : List (Hittable × List ℝ)) :
    ∀ (temp rec : HitRecord) (ha : Bool) (closest : EReal),
    (∀ p ∈ ps, MemberSpec p.1 r p.2) →
    (ha = true → ((rec.t : ℝ) : EReal) = closest) →
    ((hitLoop r mn (ps.map Prod.fst) temp ha closest rec).1 = true ↔
      (ha = true ∨ ∃ t ∈ allCands ps, mn < (t : EReal) ∧ (t : EReal) < closest)) ∧
    ((hitLoop r mn (ps.map Prod.fst) temp ha closest rec).1 = true →
      (((hitLoop r mn (ps.map Prod.fst) temp ha closest rec).2.t : EReal) ≤ closest ∧
      (∀ t ∈ allCands ps, mn < (t : EReal) → (t : EReal) < closest →
        (hitLoop r mn (ps.map Prod.fst) temp ha closest rec).2.t ≤ t) ∧
      (((hitLoop r mn (ps.map Prod.fst) temp ha closest rec).2.t ∈ allCands ps ∧
          mn < ((hitLoop r mn (ps.map Prod.fst) temp ha closest rec).2.t : EReal) ∧
          ((hitLoop r mn (ps.map Prod.fst) temp ha closest rec).2.t : EReal) < closest) ∨
        ((hitLoop r mn (ps.map Prod.fst) temp ha closest rec).2 = rec ∧ ha = true)))) := by
  induction ps with
  | nil =>
    intro temp rec ha closest _ hinv
    simp only [List.map_nil, hitLoop, allCands]
    refine ⟨by simp, ?_⟩
    intro htrue
    exact ⟨le_of_eq (hinv htrue), by simp, Or.inr ⟨by trivial, htrue⟩⟩
  | cons p rest ih =>
    intro temp rec ha closest hmem hinv
    have hspec := hmem p (List.mem_cons_self p rest)
    have hrest : ∀ q ∈ rest, MemberSpec q.1 r q.2 :=
      fun q hq => hmem q (List.mem_cons_of_mem p hq)
    simp only [List.map_cons, hitLoop, allCands]
    by_cases hres : (p.1.hit r (Interval.new mn closest) temp).1 = true
    · obtain ⟨ht1mem, ht1sur, ht1min⟩ := (hspec (Interval.new mn closest) temp).2 hres
      have ht1lo : mn < (((p.1.hit r (Interval.new mn closest) temp).2.t : ℝ) : EReal) :=
        ht1sur.1
      have ht1hi : (((p.1.hit r (Interval.new mn closest) temp).2.t : ℝ) : EReal) < closest :=
        ht1sur.2
      rw [if_pos hres]
      have ihc := ih (p.1.hit r (Interval.new mn closest) temp).2
        (p.1.hit r (Interval.new mn closest) temp).2 true
        (((p.1.hit r (Interval.new mn closest) temp).2.t : ℝ) : EReal)
        hrest (fun _ => rfl)
      have hrt := ihc.1.mpr (Or.inl rfl)
      refine ⟨⟨fun _ => Or.inr ⟨(p.1.hit r (Interval.new mn closest) temp).2.t,
        List.mem_append.mpr (Or.inl ht1mem), ht1lo, ht1hi⟩, fun _ => hrt⟩, ?_⟩
      intro _
      obtain ⟨hle, hmin, hdisj⟩ := ihc.2 hrt
      refine ⟨le_trans hle (le_of_lt ht1hi), ?_, ?_⟩
      · intro t htmem htlo hthi
        have hrt1 : (hitLoop r mn (rest.map Prod.fst)
            (p.1.hit r (Interval.new mn closest) temp).2 true
            (((p.1.hit r (Interval.new mn closest) temp).2.t : ℝ) : EReal)
            (p.1.hit r (Interval.new mn closest) temp).2).2.t ≤
            (p.1.hit r (Interval.new mn closest) temp).2.t := by
          exact_mod_cast hle
        rcases List.mem_append.mp htmem with hc | hc
        · exact le_trans hrt1 (ht1min t hc ⟨htlo, hthi⟩)
        · rcases lt_or_le (t : EReal)
            (((p.1.hit r (Interval.new mn closest) temp).2.t : ℝ) : EReal) with hlt | hge
          · exact hmin t hc htlo hlt
          · have hget : (p.1.hit r (Interval.new mn closest) temp).2.t ≤ t := by
              exact_mod_cast hge
            exact le_trans hrt1 hget
      · rcases hdisj with ⟨hm, hlo, hhi⟩ | ⟨heq, _⟩
        · exact Or.inl ⟨List.mem_append.mpr (Or.inr hm), hlo, lt_trans hhi ht1hi⟩
        · refine Or.inl ⟨List.mem_append.mpr (Or.inl ?_), ?_, ?_⟩
          · rw [heq]; exact ht1mem
          · rw [heq]; exact ht1lo
          · rw [heq]; exact ht1hi
    · rw [if_neg hres]
      have hnone : ¬ ∃ t ∈ p.2, (Interval.new mn closest).surrounds t :=
        fun hex => hres ((hspec (Interval.new mn closest) temp).1.mpr hex)
      obtain ⟨ih1, ih2⟩ := ih (p.1.hit r (Interval.new mn closest) temp).2 rec ha closest
        hrest hinv
      constructor
      · rw [ih1]
        constructor
        · rintro (hfa | ⟨t, ht, hlo, hhi⟩)
          · exact Or.inl hfa
          · exact Or.inr ⟨t, List.mem_append.mpr (Or.inr ht), hlo, hhi⟩
        · rintro (hfa | ⟨t, ht, hlo, hhi⟩)
          · exact Or.inl hfa
          · rcases List.mem_append.mp ht with hc | hc
            · exact absurd ⟨t, hc, hlo, hhi⟩ hnone
            · exact Or.inr ⟨t, hc, hlo, hhi⟩
      · intro htrue
        obtain ⟨hle, hmin, hdisj⟩ := ih2 htrue
        refine ⟨hle, ?_, ?_⟩
        · intro t htmem htlo hthi
          rcases List.mem_append.mp htmem with hc | hc
          · exact absurd ⟨t, hc, htlo, hthi⟩ hnone
          · exact hmin t hc htlo hthi
        · rcases hdisj with ⟨hm, hlo, hhi⟩ | hr
          · exact Or.inl ⟨List.mem_append.mpr (Or.inr hm), hlo, hhi⟩
          · exact Or.inr hr

/-- C3: the empty scene never reports a hit, and for members satisfying the
documented `Hittable` contract, `HittableList::hit` reports a hit exactly when
some member candidate is surrounded by the interval — and then the reported
`t` is surrounded by the interval and minimal among all surrounded candidates
of all members, so no farther hit ever overwrites a nearer one. -/
theorem hittableList_hit_nearest (ps : List (Hittable × List ℝ)) (r : Ray)
    (ray_t : Interval) (rec : HitRecord)
    (hmem : ∀ p ∈ ps, MemberSpec p.1 r p.2) :
    (HittableList.new.hit r ray_t rec = (false, rec)) ∧
    (((HittableList.mk (ps.map Prod.fst)).hit r ray_t rec).1 = true ↔
      ∃ t ∈ allCands ps, ray_t.surrounds t) ∧
    (((HittableList.mk (ps.map Prod.fst)).hit r ray_t rec).1 = true →
      ray_t.surrounds (((HittableList.mk (ps.map Prod.fst)).hit r ray_t rec).2.t) ∧
      ∀ t ∈ allCands ps, ray_t.surrounds t →
        ((HittableList.mk (ps.map Prod.fst)).hit r ray_t rec).2.t ≤ t) := by
  obtain ⟨h1, h2⟩ := hitLoop_nearest r ray_t.min ps HitRecord.default rec false
    ray_t.max hmem (by simp)
  refine ⟨rfl, ?_, ?_⟩
  · constructor
    · intro ht
      rcases h1.mp ht with hfa | ⟨t, htm, hlo, hhi⟩
      · exact absurd hfa (by simp)
      · exact ⟨t, htm, hlo, hhi⟩
    · rintro ⟨t, htm, hlo, hhi⟩
      exact h1.mpr (Or.inr ⟨t, htm, hlo, hhi⟩)
  · intro htrue
    obtain ⟨hle, hmin, hdisj⟩ := h2 htrue
    constructor
    · rcases hdisj with ⟨hm, hlo, hhi⟩ | ⟨heq, hfalse⟩
      · exact ⟨hlo, hhi⟩
      · exact absurd hfalse (by simp)
    · intro t htm hsur
      exact hmin t htm hsur.1 hsur.2

/-- The candidate intersection parameters a sphere has along a ray: none when
the discriminant is negative, else the two quadratic roots, smaller first. -/
def Sphere.roots (s : Sphere) (r : Ray) : List ℝ :=
  let oc := s.center - r.origin
  let a := r.direction.length_squared
  let h := Vec3.dot r.direction oc
  let c := oc.length_squared - s.radius * s.radius
  let discriminant := h * h - a * c
  if discriminant < 0 then []
  else [(h - Real.sqrt discriminant) / a, (h + Real.sqrt discriminant) / a]

lemma Vec3.length_squared_nonneg (v : Vec3) : 0 ≤ v.length_squared := by
  unfold Vec3.length_squared
  nlinarith [mul_self_nonneg v.x, mul_self_nonneg v.y, mul_self_nonneg v.z]

/-- A sphere, queried through the trait object, satisfies the member contract
with its quadratic roots as candidates. -/
lemma sphere_memberSpec (s : Sphere) (r : Ray) :
    MemberSpec s.toHittable r (s.roots r) := by
  intro I rec
  have hroot12 : (Vec3.dot r.direction (s.center - r.origin) -
      Real.sqrt (Vec3.dot r.direction (s.center - r.origin) *
        Vec3.dot r.direction (s.center - r.origin) -
        r.direction.length_squared *
          ((s.center - r.origin).length_squared - s.radius * s.radius))) /
      r.direction.length_squared ≤
      (Vec3.dot r.direction (s.center - r.origin) +
      Real.sqrt (Vec3.dot r.direction (s.center - r.origin) *
        Vec3.dot r.direction (s.center - r.origin) -
        r.direction.length_squared *
          ((s.center - r.origin).length_squared - s.radius * s.radius))) /
      r.direction.length_squared := by
    rcases eq_or_lt_of_le (Vec3.length_squared_nonneg r.direction) with hz | hpos
    · rw [← hz, div_zero, div_zero]
    · exact (div_le_div_iff_of_pos_right hpos).mpr
        (by nlinarith [Real.sqrt_nonneg (Vec3.dot r.direction (s.center - r.origin) *
          Vec3.dot r.direction (s.center - r.origin) -
          r.direction.length_squared *
            ((s.center - r.origin).length_squared - s.radius * s.radius))])
  simp only [Sphere.toHittable, Sphere.roots, Sphere.hit]
  split_ifs with h1 h2 h3
  · exact ⟨by simp, by simp⟩
  · refine ⟨⟨fun _ => ⟨_, by simp, h2⟩, fun _ => rfl⟩, fun _ => ⟨by simp, h2, ?_⟩⟩
    intro t htm hsur
    rcases List.mem_cons.mp htm with heq | hrest
    · rw [heq]
      exact le_refl _
    · rw [List.mem_singleton.mp hrest]
      exact hroot12
  · refine ⟨⟨fun _ => ⟨_, by simp, h3⟩, fun _ => rfl⟩, fun _ => ⟨by simp, h3, ?_⟩⟩
    intro t htm hsur
    rcases List.mem_cons.mp htm with heq | hrest
    · rw [heq] at hsur
      exact absurd hsur h2
    · rw [List.mem_singleton.mp hrest]
      exact le_refl _
  · refine ⟨⟨by simp, ?_⟩, by simp⟩
    rintro ⟨t, htm, hsur⟩
    rcases List.mem_cons.mp htm with heq | hrest
    · rw [heq] at hsur
      exact absurd hsur h2
    · rw [List.mem_singleton.mp hrest] at hsur
      exact absurd hsur h3

/-- C3 witness: a one-sphere scene whose member satisfies the contract; the
list hit accepts because the smaller root 2 lies inside the interval. -/
theorem hittableList_hit_nearest_witness :
    ((HittableList.mk [(Sphere.new (Vec3.new 0 0 (-3)) 1).toHittable]).hit
      (Ray.new Vec3.zero (Vec3.new 0 0 (-1)))
      (Interval.new ((0.001 : ℝ) : EReal) INFINITY) HitRecord.default).1 = true := by
  have hmax : max (1 : ℝ) 0 = 1 := max_eq_left zero_le_one
  have hroots : (Sphere.new (Vec3.new 0 0 (-3)) 1).roots
      (Ray.new Vec3.zero (Vec3.new 0 0 (-1))) = [2, 4] := by
    norm_num [Sphere.roots, Sphere.new, Vec3.dot, Vec3.length_squared, hmax,
      Real.sqrt_one]
  have hspec : ∀ p ∈ [((Sphere.new (Vec3.new 0 0 (-3)) 1).toHittable,
      (Sphere.new (Vec3.new 0 0 (-3)) 1).roots (Ray.new Vec3.zero (Vec3.new 0 0 (-1))))],
      MemberSpec p.1 (Ray.new Vec3.zero (Vec3.new 0 0 (-1))) p.2 := by
    intro p hp
    rw [List.mem_singleton.mp hp]
    exact sphere_memberSpec _ _
  have h := (hittableList_hit_nearest
    [((Sphere.new (Vec3.new 0 0 (-3)) 1).toHittable,
      (Sphere.new (Vec3.new 0 0 (-3)) 1).roots (Ray.new Vec3.zero (Vec3.new 0 0 (-1))))]
    (Ray.new Vec3.zero (Vec3.new 0 0 (-1)))
    (Interval.new ((0.001 : ℝ) : EReal) INFINITY) HitRecord.default hspec).2.1
  apply h.mpr
  refine ⟨2, ?_, ?_, ?_⟩
  · simp [allCands, hroots]
  · show ((0.001 : ℝ) : EReal) < ((2 : ℝ) : EReal)
    exact_mod_cast (by norm_num : (0.001 : ℝ) < 2)
  · exact EReal.coe_lt_top 2

/-- C7: when the scene query misses, `ray_color` returns the vertical sky
gradient `(1-a)*(1,1,1) + a*(0.5,0.7,1)` with `a = 0.5*(unit_direction.y + 1)`;
for the empty scene a straight-up ray gives exactly `(0.5,0.7,1)` and a
straight-down ray exactly `(1,1,1)`. -/
theorem ray_color_miss_sky_gradient (world : Hittable) (r : Ray) (depth : ℕ)
    (rng : ℕ → ScatterRand) :
    ((world.hit r (Interval.new ((0.001 : ℝ) : EReal) INFINITY) HitRecord.default).1 = false →
      Camera.ray_color world r (depth + 1) rng =
        (1 - 0.5 * (r.direction.unit_vector.y + 1)) * Vec3.new 1 1 1 +
          (0.5 * (r.direction.unit_vector.y + 1)) * Vec3.new 0.5 0.7 1) ∧
    Camera.ray_color HittableList.new.toHittable
        (Ray.new Vec3.zero (Vec3.new 0 1 0)) (depth + 1) rng = Vec3.new 0.5 0.7 1 ∧
    Camera.ray_color HittableList.new.toHittable
        (Ray.new Vec3.zero (Vec3.new 0 (-1) 0)) (depth + 1) rng = Vec3.new 1 1 1 := by
  have hmiss : ∀ (w : Hittable) (r0 : Ray),
      (w.hit r0 (Interval.new ((0.001 : ℝ) : EReal) INFINITY) HitRecord.default).1 = false →
      Camera.ray_color w r0 (depth + 1) rng =
        (1 - 0.5 * (r0.direction.unit_vector.y + 1)) * Vec3.new 1 1 1 +
          (0.5 * (r0.direction.unit_vector.y + 1)) * Vec3.new 0.5 0.7 1 := by
    intro w r0 h
    simp [Camera.ray_color, h]
  have hempty : ∀ (r0 : Ray),
      (HittableList.new.toHittable.hit r0
        (Interval.new ((0.001 : ℝ) : EReal) INFINITY) HitRecord.default) =
        (false, HitRecord.default) := fun _ => rfl
  have hup : (Vec3.new 0 1 0).unit_vector = Vec3.new 0 1 0 := by
    unfold Vec3.unit_vector Vec3.length
    norm_num [Vec3.length_squared, Real.sqrt_one]
    ext <;> norm_num
  have hdown : (Vec3.new 0 (-1) 0).unit_vector = Vec3.new 0 (-1) 0 := by
    unfold Vec3.unit_vector Vec3.length
    norm_num [Vec3.length_squared, Real.sqrt_one]
    ext <;> norm_num
  refine ⟨hmiss world r, ?_, ?_⟩
  · rw [hmiss HittableList.new.toHittable _ (by rw [hempty])]
    rw [Ray.new_direction, hup]
    ext <;> norm_num
  · rw [hmiss HittableList.new.toHittable _ (by rw [hempty])]
    rw [Ray.new_direction, hdown]
    ext <;> norm_num

end

end RayTracer
